import Mathlib

/-!
Verification of the entity-resolution core of Royal Sanction Watch
(`sanction_checker.py`) against its design specification.

The Python code is shallowly embedded: pure text helpers become Lean
functions over `String`/`List Char`; the network is an oracle (`World`)
whose calls may fail; `try/except` blocks become explicit matches on
`Except` values.  Character-level operations model the CPython behaviour
on the ASCII range (the regex `\w` is modelled as ASCII alphanumerics
plus underscore, `\s` and `str.strip` as ASCII whitespace).
-/

namespace RoyalSanctionWatch

/-! ## Character-level helpers (Python `str.lower`, `str.strip`, `re.sub`) -/

/-- Python whitespace test, restricted to the ASCII range (`\s`, `str.strip`). -/
def isPySpace (c : Char) : Bool := c.isWhitespace

/-- Characters kept by `re.sub(r'[^\w\s]', '', ·)` besides whitespace:
the ASCII reading of `\w` (letters, digits, underscore). -/
def isWordChar (c : Char) : Bool := c.isAlphanum || c = '_'

/-- ASCII lower-casing of one character (`str.lower`). -/
def lowerChar (c : Char) : Char :=
  if h : 65 ≤ c.toNat ∧ c.toNat ≤ 90 then
    Char.ofNatAux (c.toNat + 32) (Or.inl (by omega))
  else c

/-- `str.lower` character by character. -/
def lowerStr (l : List Char) : List Char := l.map lowerChar

/-- `str.strip`: drop leading and trailing whitespace. -/
def stripChars (l : List Char) : List Char :=
  ((l.dropWhile isPySpace).reverse.dropWhile isPySpace).reverse

/-- `re.sub(r'[^\w\s]', '', ·)`: keep only word characters and whitespace. -/
def subNonWord (l : List Char) : List Char :=
  l.filter (fun c => isWordChar c || isPySpace c)

/-- `SanctionChecker._normalize_text`:
`if not text: return ""` then `re.sub(r'[^\w\s]', '', text.lower().strip())`. -/
def normalizeText (s : String) : String :=
  if s = "" then ""
  else String.mk (subNonWord (stripChars (lowerStr s.data)))

/-- `str.strip` at the `String` level. -/
def pyStrip (s : String) : String := String.mk (stripChars s.data)

/-- `str.split()` with no argument: split on whitespace runs, no empty tokens. -/
def splitWsAux : List Char → List Char → List (List Char)
  | [], acc => if acc = [] then [] else [acc.reverse]
  | c :: cs, acc =>
    if isPySpace c then
      if acc = [] then splitWsAux cs [] else acc.reverse :: splitWsAux cs []
    else splitWsAux cs (c :: acc)

def splitWs (l : List Char) : List (List Char) := splitWsAux l []

/-- Whitespace-token set of a string (`set(s.split())`). -/
def tokenSet (s : String) : Finset String :=
  ((splitWs s.data).map String.mk).toFinset

/-- `SanctionChecker._calculate_similarity`: early 0.0 on falsy input, 1.0 on
equal normal forms, else the Jaccard index of the whitespace-token sets. -/
def calculateSimilarity (text1 text2 : String) : ℚ :=
  if text1 = "" ∨ text2 = "" then 0
  else
    let norm1 := normalizeText text1
    let norm2 := normalizeText text2
    if norm1 = norm2 then 1
    else
      let words1 := tokenSet norm1
      let words2 := tokenSet norm2
      if words1 = ∅ ∨ words2 = ∅ then 0
      else ((words1 ∩ words2).card : ℚ) / ((words1 ∪ words2).card : ℚ)


/-! ## Entity-type detection (`_detect_entity_type`) -/

/-- Does `a` start with `b`? (helper for Python substring containment). -/
def startsWithSeq : List Char → List Char → Bool
  | _, [] => true
  | [], _ :: _ => false
  | a :: as, b :: bs => a = b && startsWithSeq as bs

/-- Python `needle in hay` on strings: substring containment. -/
def containsSeq (hay needle : List Char) : Bool :=
  match hay with
  | [] => needle.isEmpty
  | _ :: rest => startsWithSeq hay needle || containsSeq rest needle

/-- Python `needle in hay` at the `String` level. -/
def strContains (hay needle : String) : Bool := containsSeq hay.data needle.data

/-- `str.lower` at the `String` level. -/
def pyLowerS (s : String) : String := String.mk (lowerStr s.data)

def vesselIndicators : List String :=
  ["vessel", "ship", "boat", "tanker", "cargo", "imo", "mmsi"]

def companyIndicators : List String :=
  ["ltd", "inc", "corp", "company", "co.", "llc", "plc"]

/-- `name_lower` contains one of the vessel indicator keywords. -/
def hasVesselKeyword (name : String) : Bool :=
  vesselIndicators.any (fun k => strContains (pyLowerS name) k)

/-- `name_lower` contains one of the company indicator keywords. -/
def hasCompanyKeyword (name : String) : Bool :=
  companyIndicators.any (fun k => strContains (pyLowerS name) k)

/-- `len(entity_name.split()) >= 2 and not any(char.isdigit() for char in entity_name)`. -/
def personNamePattern (name : String) : Bool :=
  2 ≤ (splitWs name.data).length && ! name.data.any Char.isDigit

/-- `SanctionChecker._detect_entity_type`. -/
def detectEntityType (name : String) : String :=
  if hasVesselKeyword name then "vessel"
  else if hasCompanyKeyword name then "company"
  else if personNamePattern name then "person"
  else "vessel"


/-! ## Data model

`SanctionMatch` mirrors the Python dataclass.  The wall-clock field
`last_updated` (`datetime.now()` at construction) is omitted: time is not
consulted by any logic under verification.  Floats are modelled as `ℚ`. -/

/-- One aggregator search hit (the fields of a `/search` result the checker
reads). -/
structure OSResult where
  id : String
  caption : String
  schema : String
  deriving DecidableEq

/-- One aggregator batch-match hit: `result.get('id', '')` and
`result.get('score', 0)` are the fields the checker reads. -/
structure MatchResult where
  id : String
  score : ℚ
  deriving DecidableEq

/-- `_create_opensanctions_entity` output: schema plus the single name. -/
structure OSEntity where
  schema : String
  name : String
  deriving DecidableEq

/-- `SanctionChecker._map_entity_type_to_schema`. -/
def mapEntityTypeToSchema (ty : String) : String :=
  if ty = "vessel" then "Vessel"
  else if ty = "person" then "Person"
  else if ty = "company" then "Company"
  else if ty = "organization" then "Organization"
  else "Thing"

/-- `SanctionChecker._create_opensanctions_entity`. -/
def createOpenSanctionsEntity (name ty : String) : OSEntity :=
  ⟨mapEntityTypeToSchema ty, name⟩

/-- A legacy dataset row: ordered column/value pairs; `none` models NaN. -/
structure Row where
  cells : List (String × Option String)
  deriving DecidableEq

/-- `row[col]` followed by the `pd.isna` test: `none` when the column is
absent or holds NaN. -/
def Row.cell (r : Row) (c : String) : Option String :=
  match r.cells.find? (fun p => p.1 == c) with
  | some p => p.2
  | none => none

/-- A legacy source dataset (`pd.DataFrame`): column list plus rows. -/
structure DataFrame where
  cols : List String
  rows : List Row
  deriving DecidableEq

/-- `df.empty`: true when the frame has no rows or no columns. -/
def DataFrame.emptyDF (df : DataFrame) : Bool := df.rows.isEmpty || df.cols.isEmpty

def emptyFrame : DataFrame := ⟨[], []⟩

/-- The `details` dict of a match: the aggregator search path stores
`entity_id`/`caption`/`schema`, the batch path stores the raw result, the
legacy path stores `row.to_dict()`. -/
inductive Details where
  | osSearch (entityId caption schema : String)
  | osMatch (r : MatchResult)
  | legacyRow (r : Row)
  deriving DecidableEq

/-- `match.details.get('entity_id', '')`: only the search-path dict has the
key (batch results carry `id`, legacy rows have no such column in the
modelled frames). -/
def Details.entityIdField : Details → String
  | .osSearch i _ _ => i
  | .osMatch _ => ""
  | .legacyRow r =>
    match r.cell "entity_id" with
    | some v => v
    | none => ""

/-- The `SanctionMatch` dataclass (without the wall-clock `last_updated`). -/
structure SanctionMatch where
  entity_name : String
  entity_type : String
  sanction_list : String
  match_type : String
  confidence : ℚ
  details : Details
  source_url : String
  deriving DecidableEq

/-! ## Static configuration from `__init__` / `Config` -/

def ofacSdnUrl : String := "https://www.treasury.gov/ofac/downloads/sdn.csv"

def ukSourceUrl : String := "https://www.gov.uk/government/publications/the-uk-sanctions-list"

def euSourceUrl : String :=
  "https://www.dma.dk/Media/638834044135010725/2025118019-7%20Importversion%20-%20List%20of%20EU%20designated%20vessels%20(20-05-2025)%203010691_2_0.XLSX"

def unSourceUrl : String := "https://www.un.org/securitycouncil/content/un-sc-consolidated-list"

/-- `sanction_sources[source].get('url', '')`: the OFAC entry has only
`sdn_url`/`vessel_url` keys, so its lookup yields the empty string. -/
def legacySourceUrl (source : String) : String :=
  if source = "UK" then ukSourceUrl
  else if source = "EU" then euSourceUrl
  else if source = "UN" then unSourceUrl
  else ""

/-- `Config.CACHE_DURATION_HOURS` default. -/
def defaultCacheDurationHours : Nat := 24

/-- `timedelta(hours=cache_duration_hours or Config.CACHE_DURATION_HOURS)`
in seconds. -/
def cacheDurationSeconds (hours : Option Nat) : Nat :=
  (hours.getD defaultCacheDurationHours) * 3600

/-- An on-disk cache entry as the spec defines it (`{source_id, fetched_at,
payload}`); the checker's fetch path never reads or writes one. -/
structure CacheEntry where
  source : String
  fetchedAt : Nat
  payload : DataFrame
  deriving DecidableEq

/-! ## The external world

Network calls and payload parsing are an oracle.  `PyErr.reqErr` stands for
`requests.exceptions.RequestException` (and its subclasses), `PyErr.otherErr`
for any other `Exception` (e.g. a `ValueError` from `response.json()`). -/

inductive PyErr where
  | reqErr (msg : String)
  | otherErr (msg : String)
  deriving DecidableEq

structure World where
  /-- GET `/search/{dataset}` and parse: query, dataset, schema, topics,
  limit. -/
  search : String → String → String → Option (List String) → Nat →
    Except PyErr (List OSResult)
  /-- POST `/match/{dataset}` and parse: the keyed queries as sent. -/
  matchPost : List (String × OSEntity) → Except PyErr (List (String × List MatchResult))
  /-- GET of the OFAC SDN CSV, parsed. -/
  fetchOfac : Except PyErr DataFrame
  /-- GET of the UK page (its body is never parsed by the code). -/
  fetchUK : Except PyErr Unit
  /-- GET of the EU spreadsheet, parsed. -/
  fetchEU : Except PyErr DataFrame
  /-- GET of the UN XML, parsed. -/
  fetchUN : Except PyErr DataFrame

/-! ## Aggregator client (`OpenSanctionsAPI`) -/

/-- `OpenSanctionsAPI.search_entities`: `requests.RequestException` (including
HTTP errors) is caught and an empty result set returned; any other exception
propagates. -/
def searchEntities (w : World) (query dataset schema : String)
    (topics : Option (List String)) (limit : Nat) : Except PyErr (List OSResult) :=
  match w.search query dataset schema topics limit with
  | .error (.reqErr _) => .ok []
  | .error (.otherErr m) => .error (.otherErr m)
  | .ok rs => .ok rs

/-- `match_entities` keys its queries `entity_{i}` by position in ITS OWN
argument list. -/
def buildQueriesAux : Nat → List OSEntity → List (String × OSEntity)
  | _, [] => []
  | i, e :: rest => ("entity_" ++ toString i, e) :: buildQueriesAux (i + 1) rest

def buildQueries (ents : List OSEntity) : List (String × OSEntity) :=
  buildQueriesAux 0 ents

/-- `OpenSanctionsAPI.match_entities`: `RequestException` is caught and an
empty response map returned; any other exception propagates. -/
def matchEntities (w : World) (ents : List OSEntity) :
    Except PyErr (List (String × List MatchResult)) :=
  match w.matchPost (buildQueries ents) with
  | .error (.reqErr _) => .ok []
  | .error (.otherErr m) => .error (.otherErr m)
  | .ok resp => .ok resp

/-! ## Legacy fetchers -/

/-- The vessel filter of `_fetch_ofac_data`:
`sdn_df[sdn_df['type'].str.contains('vessel', case=False, na=False)]` when a
`type` column exists. -/
def filterVesselRows (df : DataFrame) : DataFrame :=
  if df.cols.contains "type" then
    { cols := df.cols,
      rows := df.rows.filter (fun r =>
        match r.cell "type" with
        | none => false
        | some v => strContains (pyLowerS v) "vessel") }
  else df

/-- `SanctionChecker._fetch_ofac_data`.  `cache` and `now` stand for the
on-disk cache state under `self.cache_dir` and the current time, both
available to the method and never consulted by it; `trace` accumulates the
URLs of the HTTP requests the method issues. -/
def fetchOfacData (w : World) (cache : List CacheEntry) (now : Nat)
    (trace : List String) : DataFrame × List String :=
  ((match w.fetchOfac with
    | .error _ => emptyFrame
    | .ok df => filterVesselRows df),
   trace ++ [ofacSdnUrl])

/-- The dataset `_fetch_ofac_data` returns (empty on any error). -/
def fetchOfacDF (w : World) : DataFrame := (fetchOfacData w [] 0 []).1

/-- `_fetch_uk_data`: on a successful GET it returns the placeholder frame
with five columns and no rows; on any error, an empty frame. -/
def fetchUKDF (w : World) : DataFrame :=
  match w.fetchUK with
  | .error _ => emptyFrame
  | .ok _ => ⟨["name", "type", "country", "reason", "date_added"], []⟩

/-- `_fetch_eu_data`: the parsed spreadsheet, or an empty frame on error. -/
def fetchEUDF (w : World) : DataFrame :=
  match w.fetchEU with
  | .error _ => emptyFrame
  | .ok df => df

/-- `_fetch_un_data`: the frame built from the XML, or an empty frame on any
fetch or parse error. -/
def fetchUNDF (w : World) : DataFrame :=
  match w.fetchUN with
  | .error _ => emptyFrame
  | .ok df => df

/-! ## Legacy row scan (`_search_entity`) -/

def searchColumnsFor (ty : String) : List String :=
  if ty = "vessel" then ["vessel_name", "name", "title", "vessel"]
  else if ty = "person" then ["name", "title", "individual", "person"]
  else if ty = "company" then ["name", "title", "entity", "company", "organization"]
  else ["name", "title"]

def availableColumns (df : DataFrame) (ty : String) : List String :=
  let av := (searchColumnsFor ty).filter (fun c => df.cols.contains c)
  if av.isEmpty then df.cols else av

/-- The inner column loop of `_search_entity` for one row: the first column
that is non-NaN and matches exactly, or matches by containment with
similarity above 0.7, produces the row's match and breaks; a containment hit
at or below the threshold falls through to the next column. -/
def scanRow (name ty source : String) (row : Row) : List String → Option SanctionMatch
  | [] => none
  | c :: rest =>
    match row.cell c with
    | none => scanRow name ty source row rest
    | some v =>
      if normalizeText name = normalizeText v then
        some { entity_name := name, entity_type := ty, sanction_list := source,
               match_type := "exact", confidence := 1,
               details := .legacyRow row, source_url := legacySourceUrl source }
      else if strContains (normalizeText v) (normalizeText name)
           || strContains (normalizeText name) (normalizeText v) then
        if (7 : ℚ)/10 < calculateSimilarity name v then
          some { entity_name := name, entity_type := ty, sanction_list := source,
                 match_type := "partial", confidence := calculateSimilarity name v,
                 details := .legacyRow row, source_url := legacySourceUrl source }
        else scanRow name ty source row rest
      else scanRow name ty source row rest

/-- `SanctionChecker._search_entity`: scan every row, at most one match per
row. -/
def searchEntity (name ty : String) (df : DataFrame) (source : String) :
    List SanctionMatch :=
  df.rows.filterMap (fun r => scanRow name ty source r (availableColumns df ty))

/-! ## Aggregator result processing and dedup -/

def osSourceUrl (id : String) : String :=
  "https://www.opensanctions.org/entities/" ++ id

/-- `SanctionChecker._process_opensanctions_results`. -/
def processOpenSanctionsResults (results : List OSResult) (name ty : String) :
    List SanctionMatch :=
  results.map (fun r =>
    let confidence := calculateSimilarity name r.caption
    { entity_name := name, entity_type := ty, sanction_list := "OpenSanctions",
      match_type := if (9 : ℚ)/10 ≤ confidence then "exact"
        else if (7 : ℚ)/10 ≤ confidence then "partial" else "fuzzy",
      confidence := confidence,
      details := .osSearch r.id r.caption r.schema,
      source_url := osSourceUrl r.id })

/-- The key of the `seen_ids` dedup loop: `match.details.get('entity_id', '')`. -/
def dedupKeyOf (m : SanctionMatch) : String := m.details.entityIdField

/-- The `seen_ids`/`unique_matches` loop of `check_single_entity`. -/
def dedupByIdAux (seen : List String) : List SanctionMatch → List SanctionMatch
  | [] => []
  | m :: rest =>
    if dedupKeyOf m ∈ seen then dedupByIdAux seen rest
    else m :: dedupByIdAux (dedupKeyOf m :: seen) rest

def dedupById (l : List SanctionMatch) : List SanctionMatch := dedupByIdAux [] l

/-! ## Single-entity resolution (`check_single_entity`) -/

def resolveType (name ty : String) : String :=
  if ty = "auto" then detectEntityType name else ty

/-- The OpenSanctions block of `check_single_entity`, inside its
`try/except`: an exception from the first search leaves nothing, one from
the second search keeps the first search's matches and skips the dedup. -/
def osBlock (w : World) (name ty : String) : List SanctionMatch :=
  match searchEntities w name "sanctions" (mapEntityTypeToSchema ty)
      (some ["sanction"]) 10 with
  | .error _ => []
  | .ok rs1 =>
    let m1 := processOpenSanctionsResults rs1 name ty
    match searchEntities w name "default" (mapEntityTypeToSchema ty) none 10 with
    | .error _ => m1
    | .ok rs2 => dedupById (m1 ++ processOpenSanctionsResults rs2 name ty)

/-- One legacy source's contribution: skipped when its frame is empty. -/
def legacyContrib (name ty : String) (df : DataFrame) (source : String) :
    List SanctionMatch :=
  if df.emptyDF then [] else searchEntity name ty df source

/-- `SanctionChecker.check_single_entity`: every per-source failure is
caught, so the call always returns a plain list. -/
def checkSingleEntity (w : World) (name ty0 : String) : List SanctionMatch :=
  let ty := resolveType name ty0
  osBlock w name ty
    ++ legacyContrib name ty (fetchOfacDF w) "OFAC"
    ++ legacyContrib name ty (fetchUKDF w) "UK"
    ++ legacyContrib name ty (fetchEUDF w) "EU"
    ++ legacyContrib name ty (fetchUNDF w) "UN"

/-! ## Bulk resolution (`check_bulk_entities`) -/

/-- One input dict: `entity.get('name', '')` and `entity.get('type', 'auto')`. -/
structure EntityIn where
  name : String
  ty : String
  deriving DecidableEq

/-- The preparation loop: `for i, entity in enumerate(entities)` skips
empty names but keys `entity_mapping` by the ORIGINAL index `i`, while the
queries list keeps only the retained entities. -/
def bulkPrepAux : Nat → List EntityIn → List OSEntity × List (String × String × String)
  | _, [] => ([], [])
  | i, e :: rest =>
    let p := bulkPrepAux (i + 1) rest
    if e.name = "" then p
    else
      let t := if e.ty = "auto" then detectEntityType e.name else e.ty
      (createOpenSanctionsEntity e.name t :: p.1,
       ("entity_" ++ toString i, e.name, t) :: p.2)

def bulkPrep (ents : List EntityIn) : List OSEntity × List (String × String × String) :=
  bulkPrepAux 0 ents

/-- Python dict lookup on an insertion-ordered association list. -/
def alookup {α : Type} (l : List (String × α)) (k : String) : Option α :=
  match l.find? (fun p => p.1 == k) with
  | some p => some p.2
  | none => none

/-- Python dict assignment `d[k] = v`. -/
def upsert {α : Type} (l : List (String × α)) (k : String) (v : α) :
    List (String × α) :=
  if l.any (fun p => p.1 == k) then
    l.map (fun p => if p.1 == k then (k, v) else p)
  else l ++ [(k, v)]

def dictKeys {α : Type} (l : List (String × α)) : List String := l.map (fun p => p.1)

/-- One batch-path match record: `'fuzzy' if result.get('score', 0) < 0.9
else 'exact'`. -/
def buildBatchMatch (name ty : String) (r : MatchResult) : SanctionMatch :=
  { entity_name := name, entity_type := ty, sanction_list := "OpenSanctions",
    match_type := if r.score < (9 : ℚ)/10 then "fuzzy" else "exact",
    confidence := r.score,
    details := .osMatch r,
    source_url := osSourceUrl r.id }

/-- The response-processing loop: a response whose query id is not in
`entity_mapping` is dropped silently. -/
def bulkSuccessFold (mapping : List (String × String × String))
    (responses : List (String × List MatchResult)) :
    List (String × List SanctionMatch) :=
  responses.foldl (fun acc qr =>
    match alookup mapping qr.1 with
    | none => acc
    | some nt => upsert acc nt.1 (qr.2.map (buildBatchMatch nt.1 nt.2))) []

/-- The `except` fallback: one `check_single_entity` per non-empty name. -/
def bulkFallback (w : World) (ents : List EntityIn) :
    List (String × List SanctionMatch) :=
  ents.foldl (fun acc e =>
    if e.name = "" then acc
    else upsert acc e.name (checkSingleEntity w e.name e.ty)) []

/-- `SanctionChecker.check_bulk_entities`. -/
def checkBulkEntities (w : World) (ents : List EntityIn) :
    List (String × List SanctionMatch) :=
  let prep := bulkPrep ents
  match matchEntities w prep.1 with
  | .ok responses => bulkSuccessFold prep.2 responses
  | .error _ => bulkFallback w ents

/-! ## Concrete worlds and inputs for witnesses and counterexamples -/

/-- Every outbound call fails with a request-level (caught) error. -/
def failWorld : World :=
  { search := fun _ _ _ _ _ => .error (.reqErr "connection error"),
    matchPost := fun _ => .error (.reqErr "connection error"),
    fetchOfac := .error (.reqErr "connection error"),
    fetchUK := .error (.reqErr "connection error"),
    fetchEU := .error (.reqErr "connection error"),
    fetchUN := .error (.reqErr "connection error") }

/-- A two-row OFAC frame with a single `name` column. -/
def ofacTwoRowFrame : DataFrame :=
  ⟨["name"], [⟨[("name", some "Ever Given")]⟩, ⟨[("name", some "Ocean Star")]⟩]⟩

/-- Only the OFAC CSV fetch succeeds; everything else is down. -/
def ofacOnlyWorld : World := { failWorld with fetchOfac := .ok ofacTwoRowFrame }

def acmeRow : Row := ⟨[("name", some "Acme Corp")]⟩

/-- An OFAC frame whose two rows carry the same name. -/
def ofacDupFrame : DataFrame := ⟨["name"], [acmeRow, acmeRow]⟩

def dupRowWorld : World := { failWorld with fetchOfac := .ok ofacDupFrame }

/-- The OFAC match record produced twice for `ofacDupFrame` (its `details`
dict carries no record identifier, so the spec's dedup key falls back to the
normalized name, identical for both). -/
def acmeMatch : SanctionMatch :=
  { entity_name := "Acme Corp", entity_type := "company", sanction_list := "OFAC",
    match_type := "exact", confidence := 1,
    details := .legacyRow acmeRow, source_url := "" }

/-- Two sanctions-dataset search hits sharing one entity id. -/
def osDupResults : List OSResult :=
  [⟨"Q1", "Ever Given", "Vessel"⟩, ⟨"Q1", "Ever Given (alt)", "Vessel"⟩]

/-- The sanctions-dataset search succeeds with duplicate ids; the default
search returns nothing; the legacy sources are down. -/
def osSearchWorld : World :=
  { failWorld with
    search := fun _ ds _ _ _ => if ds = "sanctions" then .ok osDupResults else .ok [] }

/-- The batch endpoint raises a non-request error (e.g. malformed JSON). -/
def jsonErrWorld : World :=
  { failWorld with matchPost := fun _ => .error (.otherErr "bad json") }

def midScoreResult : MatchResult := ⟨"os-1", 3/4⟩

/-- The batch endpoint returns one hit with server score 0.75. -/
def midScoreWorld : World :=
  { failWorld with matchPost := fun _ => .ok [("entity_0", [midScoreResult])] }

def oneFooCorp : List EntityIn := [⟨"Foo Corp", "company"⟩]

def resultForA : MatchResult := ⟨"os-A", 1⟩

def resultForB : MatchResult := ⟨"os-B", 1⟩

/-- A well-behaved batch server: it answers each received query key with the
results for exactly the query sent under that key ("A" gets `resultForA`,
anything else `resultForB`). -/
def echoServerWorld : World :=
  { failWorld with
    matchPost := fun qs =>
      .ok (qs.map (fun p => (p.1, if p.2.name = "A" then [resultForA] else [resultForB]))) }

/-- A batch whose first entry has an empty name and is skipped. -/
def entsWithSkip : List EntityIn := [⟨"", "auto"⟩, ⟨"A", "company"⟩, ⟨"B", "company"⟩]

/-- A one-row frame standing for a cached OFAC payload. -/
def cachedFrame : DataFrame := ⟨["name"], [⟨[("name", some "Cached Vessel")]⟩]⟩

/-- A cache entry for OFAC written at time `t`. -/
def freshOfacCache (t : Nat) : List CacheEntry := [⟨"OFAC", t, cachedFrame⟩]

/-! ## Facts about normalization used for the idempotence analysis -/

theorem toNat_ofNatAux (n : Nat) (h : n.isValidChar) :
    (Char.ofNatAux n h).toNat = n := rfl

theorem lowerChar_toNat_not_upper (c : Char) :
    ¬ (65 ≤ (lowerChar c).toNat ∧ (lowerChar c).toNat ≤ 90) := by
  unfold lowerChar
  by_cases h : 65 ≤ c.toNat ∧ c.toNat ≤ 90
  · rw [dif_pos h, toNat_ofNatAux]
    omega
  · rw [dif_neg h]
    exact h

theorem lowerChar_idem (c : Char) : lowerChar (lowerChar c) = lowerChar c := by
  conv_lhs => rw [lowerChar]
  rw [dif_neg (lowerChar_toNat_not_upper c)]

theorem mem_dropWhile {p : Char → Bool} {l : List Char} {c : Char}
    (h : c ∈ l.dropWhile p) : c ∈ l := by
  induction l with
  | nil => exact h
  | cons a as ih =>
    rw [List.dropWhile] at h
    by_cases hp : p a
    · simp only [hp] at h
      exact List.mem_cons_of_mem a (ih h)
    · simp only [Bool.not_eq_true] at hp
      rw [hp] at h
      exact h

theorem mem_stripChars {l : List Char} {c : Char} (h : c ∈ stripChars l) : c ∈ l := by
  unfold stripChars at h
  rw [List.mem_reverse] at h
  have h2 := mem_dropWhile h
  rw [List.mem_reverse] at h2
  exact mem_dropWhile h2

theorem mem_lowerStr {l : List Char} {c : Char} (h : c ∈ lowerStr l) :
    ∃ c0, c = lowerChar c0 := by
  unfold lowerStr at h
  obtain ⟨c0, _, hc⟩ := List.mem_map.mp h
  exact ⟨c0, hc.symm⟩

theorem mem_subNonWord {l : List Char} {c : Char} (h : c ∈ subNonWord l) :
    c ∈ l ∧ (isWordChar c || isPySpace c) := by
  unfold subNonWord at h
  exact ⟨(List.mem_filter.mp h).1, (List.mem_filter.mp h).2⟩

theorem lowerStr_of_all_lower {l : List Char} (h : ∀ c ∈ l, lowerChar c = c) :
    lowerStr l = l := by
  unfold lowerStr
  calc l.map lowerChar = l.map id := List.map_congr_left h
  _ = l := List.map_id l

theorem subNonWord_of_all_kept {l : List Char}
    (h : ∀ c ∈ l, (isWordChar c || isPySpace c) = true) :
    subNonWord l = l :=
  List.filter_eq_self.mpr h

/-- The body of a non-empty normalization: strip then drop non-word characters
of the lower-cased input. -/
theorem normalizeText_eq (s : String) (h : s ≠ "") :
    normalizeText s = String.mk (subNonWord (stripChars (lowerStr s.data))) := by
  rw [normalizeText, if_neg h]

theorem data_mk (l : List Char) : (String.mk l).data = l := rfl

/-- Every character of a normalized string is already lower-case and survives
the `[^\w\s]` removal. -/
theorem normalizeText_chars {s : String} {c : Char} (h : c ∈ (normalizeText s).data) :
    lowerChar c = c ∧ (isWordChar c || isPySpace c) = true := by
  by_cases hs : s = ""
  · rw [hs] at h
    simp [normalizeText] at h
  · rw [normalizeText_eq s hs, data_mk] at h
    obtain ⟨hmem, hkept⟩ := mem_subNonWord h
    have hlow := mem_lowerStr (mem_stripChars hmem)
    obtain ⟨c0, rfl⟩ := hlow
    exact ⟨lowerChar_idem c0, hkept⟩

/-! ## Facts about the dedup loop -/

theorem dedupByIdAux_key_not_seen (seen : List String) (l : List SanctionMatch) :
    ∀ m ∈ dedupByIdAux seen l, dedupKeyOf m ∉ seen := by
  induction l generalizing seen with
  | nil => intro m hm; cases hm
  | cons a rest ih =>
    intro m hm
    rw [dedupByIdAux] at hm
    by_cases ha : dedupKeyOf a ∈ seen
    · rw [if_pos ha] at hm
      exact ih seen m hm
    · rw [if_neg ha] at hm
      rcases List.mem_cons.mp hm with rfl | hm2
      · exact ha
      · have := ih (dedupKeyOf a :: seen) m hm2
        exact fun hs => this (List.mem_cons_of_mem _ hs)

theorem dedupByIdAux_nodup (seen : List String) (l : List SanctionMatch) :
    ((dedupByIdAux seen l).map dedupKeyOf).Nodup := by
  induction l generalizing seen with
  | nil => exact List.nodup_nil
  | cons a rest ih =>
    rw [dedupByIdAux]
    by_cases ha : dedupKeyOf a ∈ seen
    · rw [if_pos ha]
      exact ih seen
    · rw [if_neg ha]
      rw [List.map_cons, List.nodup_cons]
      constructor
      · intro hmem
        obtain ⟨m, hm, hk⟩ := List.mem_map.mp hmem
        have := dedupByIdAux_key_not_seen (dedupKeyOf a :: seen) rest m hm
        rw [hk] at this
        exact this (List.mem_cons_self _ _)
      · exact ih (dedupKeyOf a :: seen)

theorem dedupByIdAux_sublist (seen : List String) (l : List SanctionMatch) :
    List.Sublist (dedupByIdAux seen l) l := by
  induction l generalizing seen with
  | nil => exact List.Sublist.refl []
  | cons a rest ih =>
    rw [dedupByIdAux]
    by_cases ha : dedupKeyOf a ∈ seen
    · rw [if_pos ha]
      exact (ih seen).cons a
    · rw [if_neg ha]
      exact (ih (dedupKeyOf a :: seen)).cons₂ a

theorem dedupByIdAux_covers (seen : List String) (l : List SanctionMatch) :
    ∀ m ∈ l, dedupKeyOf m ∈ seen ∨
      ∃ m2 ∈ dedupByIdAux seen l, dedupKeyOf m2 = dedupKeyOf m := by
  induction l generalizing seen with
  | nil => intro m hm; cases hm
  | cons a rest ih =>
    intro m hm
    rw [dedupByIdAux]
    by_cases ha : dedupKeyOf a ∈ seen
    · rw [if_pos ha]
      rcases List.mem_cons.mp hm with rfl | hm2
      · exact Or.inl ha
      · exact ih seen m hm2
    · rw [if_neg ha]
      rcases List.mem_cons.mp hm with rfl | hm2
      · exact Or.inr ⟨m, List.mem_cons_self _ _, rfl⟩
      · rcases ih (dedupKeyOf a :: seen) m hm2 with hs | ⟨m2, hm2', hk⟩
        · rcases List.mem_cons.mp hs with heq | hs2
          · exact Or.inr ⟨a, List.mem_cons_self _ _, heq.symm⟩
          · exact Or.inl hs2
        · exact Or.inr ⟨m2, List.mem_cons_of_mem _ hm2', hk⟩

theorem dedupByIdAux_first (seen : List String) (l : List SanctionMatch) :
    ∀ m ∈ dedupByIdAux seen l, ∃ l1 l2, l = l1 ++ m :: l2 ∧
      ∀ x ∈ l1, dedupKeyOf x ≠ dedupKeyOf m := by
  induction l generalizing seen with
  | nil => intro m hm; cases hm
  | cons a rest ih =>
    intro m hm
    rw [dedupByIdAux] at hm
    by_cases ha : dedupKeyOf a ∈ seen
    · rw [if_pos ha] at hm
      obtain ⟨l1, l2, heq, hkeys⟩ := ih seen m hm
      refine ⟨a :: l1, l2, by rw [heq, List.cons_append], ?_⟩
      intro x hx
      rcases List.mem_cons.mp hx with rfl | hx2
      · have hnot := dedupByIdAux_key_not_seen seen rest m hm
        intro hcontra
        rw [hcontra] at ha
        exact hnot ha
      · exact hkeys x hx2
    · rw [if_neg ha] at hm
      rcases List.mem_cons.mp hm with rfl | hm2
      · exact ⟨[], rest, rfl, fun x hx => absurd hx (List.not_mem_nil x)⟩
      · obtain ⟨l1, l2, heq, hkeys⟩ := ih (dedupKeyOf a :: seen) m hm2
        refine ⟨a :: l1, l2, by rw [heq, List.cons_append], ?_⟩
        intro x hx
        rcases List.mem_cons.mp hx with rfl | hx2
        · have hnot := dedupByIdAux_key_not_seen (dedupKeyOf x :: seen) rest m hm2
          intro hcontra
          exact hnot (by rw [← hcontra]; exact List.mem_cons_self _ _)
        · exact hkeys x hx2

/-! ## Facts about the Python-dict model -/

theorem dictKeys_upsert {α : Type} (l : List (String × α)) (k : String) (v : α) :
    dictKeys (upsert l k v) =
      if l.any (fun p => p.1 == k) then dictKeys l else dictKeys l ++ [k] := by
  unfold upsert
  by_cases h : l.any (fun p => p.1 == k)
  · rw [if_pos h, if_pos h]
    unfold dictKeys
    rw [List.map_map]
    refine List.map_congr_left ?_
    intro p _
    by_cases hp : p.1 == k
    · simp only [Function.comp_apply, if_pos hp]
      exact (eq_of_beq hp).symm
    · simp only [Function.comp_apply, if_neg hp]
  · rw [if_neg h, if_neg h]
    unfold dictKeys
    rw [List.map_append]
    rfl

theorem mem_dictKeys_upsert {α : Type} {l : List (String × α)} {k k' : String}
    {v : α} (h : k' ∈ dictKeys (upsert l k v)) : k' ∈ dictKeys l ∨ k' = k := by
  rw [dictKeys_upsert] at h
  by_cases hany : l.any (fun p => p.1 == k)
  · rw [if_pos hany] at h
    exact Or.inl h
  · rw [if_neg hany] at h
    rcases List.mem_append.mp h with h1 | h2
    · exact Or.inl h1
    · exact Or.inr (List.mem_singleton.mp h2)

theorem self_mem_dictKeys_upsert {α : Type} (l : List (String × α)) (k : String)
    (v : α) : k ∈ dictKeys (upsert l k v) := by
  rw [dictKeys_upsert]
  by_cases hany : l.any (fun p => p.1 == k)
  · rw [if_pos hany]
    obtain ⟨p, hp, hbeq⟩ := List.any_eq_true.mp hany
    rw [← eq_of_beq hbeq]
    exact List.mem_map.mpr ⟨p, hp, rfl⟩
  · rw [if_neg hany]
    exact List.mem_append.mpr (Or.inr (List.mem_singleton.mpr rfl))

theorem mem_dictKeys_upsert_of_mem {α : Type} {l : List (String × α)} {k' : String}
    (k : String) (v : α) (h : k' ∈ dictKeys l) : k' ∈ dictKeys (upsert l k v) := by
  rw [dictKeys_upsert]
  by_cases hany : l.any (fun p => p.1 == k)
  · rw [if_pos hany]
    exact h
  · rw [if_neg hany]
    exact List.mem_append.mpr (Or.inl h)

theorem alookup_mem {α : Type} {l : List (String × α)} {k : String} {v : α}
    (h : alookup l k = some v) : (k, v) ∈ l := by
  unfold alookup at h
  cases hf : l.find? (fun p => p.1 == k) with
  | none => rw [hf] at h; cases h
  | some p =>
    rw [hf] at h
    cases h
    have hmem := List.mem_of_find?_eq_some hf
    have hbeq := List.find?_some hf
    obtain ⟨pk, pv⟩ := p
    have hk : pk = k := eq_of_beq hbeq
    subst hk
    exact hmem

/-- A second normalization pass only strips whitespace that the first pass's
character removal exposed at the ends. -/
theorem normalizeText_normalizeText (s : String) :
    normalizeText (normalizeText s) = pyStrip (normalizeText s) := by
  by_cases ht : normalizeText s = ""
  · rw [ht]
    decide
  · rw [normalizeText_eq _ ht, pyStrip]
    have hlow : lowerStr (normalizeText s).data = (normalizeText s).data :=
      lowerStr_of_all_lower (fun c hc => (normalizeText_chars hc).1)
    rw [hlow]
    have hkept : subNonWord (stripChars (normalizeText s).data) =
        stripChars (normalizeText s).data :=
      subNonWord_of_all_kept
        (fun c hc => (normalizeText_chars (mem_stripChars hc)).2)
    rw [hkept]

/-! ## Facts about the orchestration -/

/-- When every aggregator search call fails, the OpenSanctions block of
`check_single_entity` contributes nothing (request errors yield empty result
sets, other exceptions are caught by the surrounding handler). -/
theorem osBlock_of_search_down (w : World) (name ty : String)
    (hs : ∀ q ds sch tp lim, ∃ e, w.search q ds sch tp lim = Except.error e) :
    osBlock w name ty = [] := by
  obtain ⟨e1, he1⟩ := hs name "sanctions" (mapEntityTypeToSchema ty) (some ["sanction"]) 10
  obtain ⟨e2, he2⟩ := hs name "default" (mapEntityTypeToSchema ty) none 10
  rw [osBlock, searchEntities, he1]
  cases e1 with
  | otherErr m => rfl
  | reqErr m =>
    rw [searchEntities, he2]
    cases e2 with
    | otherErr m2 => rfl
    | reqErr m2 => rfl

/-- A failed legacy fetch contributes nothing. -/
theorem legacyContrib_empty (name ty source : String) :
    legacyContrib name ty emptyFrame source = [] := rfl

/-- The queries `check_bulk_entities` sends are exactly one per input entry
with a non-empty name, in order, regardless of the running index. -/
theorem bulkPrepAux_queries (ents : List EntityIn) : ∀ i : Nat,
    (bulkPrepAux i ents).1 =
      (ents.filter (fun e => ! (e.name == ""))).map
        (fun e => createOpenSanctionsEntity e.name
          (if e.ty = "auto" then detectEntityType e.name else e.ty)) := by
  induction ents with
  | nil => intro i; rfl
  | cons e rest ih =>
    intro i
    rw [bulkPrepAux, List.filter]
    by_cases he : e.name = ""
    · rw [if_pos he, beq_iff_eq.mpr he]
      exact ih (i + 1)
    · rw [if_neg he, beq_eq_false_iff_ne.mpr he]
      show createOpenSanctionsEntity e.name
            (if e.ty = "auto" then detectEntityType e.name else e.ty) ::
          (bulkPrepAux (i + 1) rest).1 =
        createOpenSanctionsEntity e.name
            (if e.ty = "auto" then detectEntityType e.name else e.ty) ::
          (rest.filter (fun e => ! (e.name == ""))).map
            (fun e => createOpenSanctionsEntity e.name
              (if e.ty = "auto" then detectEntityType e.name else e.ty))
      rw [ih (i + 1)]

/-- Every name recorded in `entity_mapping` is a non-empty name of some
input entry. -/
theorem bulkPrepAux_mapping_names (ents : List EntityIn) : ∀ (i : Nat)
    (q nm t : String), (q, nm, t) ∈ (bulkPrepAux i ents).2 →
    nm ≠ "" ∧ ∃ e ∈ ents, e.name = nm := by
  induction ents with
  | nil => intro i q nm t h; cases h
  | cons e rest ih =>
    intro i q nm t h
    rw [bulkPrepAux] at h
    by_cases he : e.name = ""
    · rw [if_pos he] at h
      obtain ⟨hne, e2, he2, hn2⟩ := ih (i + 1) q nm t h
      exact ⟨hne, e2, List.mem_cons_of_mem _ he2, hn2⟩
    · rw [if_neg he] at h
      rcases List.mem_cons.mp h with heq | h2
      · cases heq
        exact ⟨he, e, List.mem_cons_self _ _, rfl⟩
      · obtain ⟨hne, e2, he2, hn2⟩ := ih (i + 1) q nm t h2
        exact ⟨hne, e2, List.mem_cons_of_mem _ he2, hn2⟩

/-- Keys produced by the success-path response loop all come from
`entity_mapping`. -/
theorem bulkSuccessFold_keys (mapping : List (String × String × String)) :
    ∀ (responses : List (String × List MatchResult))
      (acc : List (String × List SanctionMatch)) (k : String),
      k ∈ dictKeys (List.foldl (fun acc qr =>
        match alookup mapping qr.1 with
        | none => acc
        | some nt => upsert acc nt.1 (qr.2.map (buildBatchMatch nt.1 nt.2))) acc responses) →
      k ∈ dictKeys acc ∨ ∃ q t, (q, k, t) ∈ mapping := by
  intro responses
  induction responses with
  | nil => intro acc k h; exact Or.inl h
  | cons qr rest ih =>
    intro acc k h
    rw [List.foldl_cons] at h
    cases hl : alookup mapping qr.1 with
    | none =>
      rw [hl] at h
      exact ih acc k h
    | some nt =>
      rw [hl] at h
      rcases ih _ k h with hacc | hmap
      · rcases mem_dictKeys_upsert hacc with h1 | h2
        · exact Or.inl h1
        · subst h2
          exact Or.inr ⟨qr.1, nt.2, by
            have := alookup_mem hl
            exact this⟩
      · exact Or.inr hmap

theorem bulkSuccessFold_keys_start (mapping : List (String × String × String))
    (responses : List (String × List MatchResult)) (k : String)
    (h : k ∈ dictKeys (bulkSuccessFold mapping responses)) :
    ∃ q t, (q, k, t) ∈ mapping := by
  rcases bulkSuccessFold_keys mapping responses [] k h with h0 | hm
  · cases h0
  · exact hm

/-- Keys survive further fallback steps. -/
theorem bulkFallback_keeps (w : World) :
    ∀ (rest : List EntityIn) (acc : List (String × List SanctionMatch)) (k : String),
    k ∈ dictKeys acc →
    k ∈ dictKeys (List.foldl (fun acc e =>
      if e.name = "" then acc
      else upsert acc e.name (checkSingleEntity w e.name e.ty)) acc rest) := by
  intro rest
  induction rest with
  | nil => intro acc k h; exact h
  | cons e es ih =>
    intro acc k h
    rw [List.foldl_cons]
    by_cases he : e.name = ""
    · rw [if_pos he]
      exact ih acc k h
    · rw [if_neg he]
      exact ih _ k (mem_dictKeys_upsert_of_mem _ _ h)

/-- The fallback loop records every non-empty input name. -/
theorem bulkFallback_mem_keys (w : World) :
    ∀ (ents : List EntityIn) (acc : List (String × List SanctionMatch))
      (e : EntityIn), e ∈ ents → e.name ≠ "" →
    e.name ∈ dictKeys (List.foldl (fun acc e =>
      if e.name = "" then acc
      else upsert acc e.name (checkSingleEntity w e.name e.ty)) acc ents) := by
  intro ents
  induction ents with
  | nil => intro acc e h; cases h
  | cons a rest ih =>
    intro acc e hmem hne
    rw [List.foldl_cons]
    rcases List.mem_cons.mp hmem with rfl | h2
    · rw [if_neg hne]
      exact bulkFallback_keeps w rest _ e.name (self_mem_dictKeys_upsert _ _ _)
    · by_cases ha : a.name = ""
      · rw [if_pos ha]
        exact ih acc e h2 hne
      · rw [if_neg ha]
        exact ih _ e h2 hne

/-- Every key of the fallback result is a non-empty name of some input. -/
theorem bulkFallback_keys_sound (w : World) :
    ∀ (ents : List EntityIn) (acc : List (String × List SanctionMatch)) (k : String),
    k ∈ dictKeys (List.foldl (fun acc e =>
      if e.name = "" then acc
      else upsert acc e.name (checkSingleEntity w e.name e.ty)) acc ents) →
    k ∈ dictKeys acc ∨ k ≠ "" ∧ ∃ e ∈ ents, e.name = k := by
  intro ents
  induction ents with
  | nil => intro acc k h; exact Or.inl h
  | cons a rest ih =>
    intro acc k h
    rw [List.foldl_cons] at h
    by_cases ha : a.name = ""
    · rw [if_pos ha] at h
      rcases ih acc k h with h1 | ⟨hne, e, he, hk⟩
      · exact Or.inl h1
      · exact Or.inr ⟨hne, e, List.mem_cons_of_mem _ he, hk⟩
    · rw [if_neg ha] at h
      rcases ih _ k h with h1 | ⟨hne, e, he, hk⟩
      · rcases mem_dictKeys_upsert h1 with h2 | h3
        · exact Or.inl h2
        · subst h3
          exact Or.inr ⟨ha, a, List.mem_cons_self _ _, rfl⟩
      · exact Or.inr ⟨hne, e, List.mem_cons_of_mem _ he, hk⟩

/-- A symbolic unfolding of `_calculate_similarity`. -/
theorem calculateSimilarity_def (a b : String) :
    calculateSimilarity a b =
      if a = "" ∨ b = "" then 0
      else if normalizeText a = normalizeText b then 1
      else if tokenSet (normalizeText a) = ∅ ∨ tokenSet (normalizeText b) = ∅ then 0
      else ((tokenSet (normalizeText a) ∩ tokenSet (normalizeText b)).card : ℚ) /
        ((tokenSet (normalizeText a) ∪ tokenSet (normalizeText b)).card : ℚ) := rfl

/-! ## The claims -/

/-- C1: the claim says a legacy fetch within the cache TTL is served from the
cache without a network call.  The code never consults the cache: the fetched
value is independent of the cache state and the clock, a network request to
the SDN URL is issued on every call, and at age TTL − 1s a fresh cache entry
is ignored (here the network is down, so the empty frame is returned instead
of the cached payload). -/
theorem c1_fetch_ignores_cache :
    (∀ (w : World) (cache : List CacheEntry) (now : Nat) (trace : List String),
      fetchOfacData w cache now trace = (fetchOfacDF w, trace ++ [ofacSdnUrl])) ∧
    (fetchOfacData failWorld (freshOfacCache 0) (cacheDurationSeconds none - 1) []).2
      = [ofacSdnUrl] ∧
    (fetchOfacData failWorld (freshOfacCache 0) (cacheDurationSeconds none - 1) []).1
      = emptyFrame ∧
    emptyFrame ≠ cachedFrame := by
  refine ⟨fun w cache now trace => rfl, rfl, rfl, by decide⟩

/-- C2 counterexample: with a single non-empty input entity and the
aggregator's batch endpoint failing with a request error (an outage), the
returned mapping is empty — it has no entry for the input entity, contrary
to the claim. -/
theorem c2_counterexample :
    alookup (checkBulkEntities failWorld oneFooCorp) "Foo Corp" = none ∧
    oneFooCorp.map EntityIn.name = ["Foo Corp"] := ⟨rfl, rfl⟩

/-- C2 (amended): only an exception that escapes `match_entities` (anything
but a request error, e.g. a JSON decode failure) triggers the sequential
fallback, and then every input entity with a non-empty name gets an entry;
a request-level outage is swallowed inside the client, returns an empty
response map, and produces no fallback and no entries. -/
theorem c2_fallback_on_raised_error (w : World) (ents : List EntityIn) (msg : String)
    (hfail : w.matchPost (buildQueries (bulkPrep ents).1) =
      Except.error (PyErr.otherErr msg)) :
    checkBulkEntities w ents = bulkFallback w ents ∧
    ∀ e ∈ ents, e.name ≠ "" → e.name ∈ dictKeys (checkBulkEntities w ents) := by
  have hm : matchEntities w (bulkPrep ents).1 = Except.error (PyErr.otherErr msg) := by
    rw [matchEntities, hfail]
  have heq : checkBulkEntities w ents = bulkFallback w ents := by
    show (match matchEntities w (bulkPrep ents).1 with
      | .ok responses => bulkSuccessFold (bulkPrep ents).2 responses
      | .error _ => bulkFallback w ents) = bulkFallback w ents
    rw [hm]
  refine ⟨heq, ?_⟩
  intro e he hne
  rw [heq]
  exact bulkFallback_mem_keys w ents [] e he hne

theorem c2_witness :
    "Foo Corp" ∈ dictKeys (checkBulkEntities jsonErrWorld oneFooCorp) := by
  have h := c2_fallback_on_raised_error jsonErrWorld oneFooCorp "bad json" rfl
  exact h.2 ⟨"Foo Corp", "company"⟩ (by decide) (by decide)

/-- C3: with the aggregator searches failing, three legacy sources failing
and the OFAC fetch succeeding with a non-empty frame, `check_single_entity`
completes with exactly the matches derived from the OFAC frame — no
per-source failure escapes. -/
theorem c3_only_successful_source (w : World) (name ty : String) (df : DataFrame)
    (hagg : ∀ q ds sch tp lim, ∃ e, w.search q ds sch tp lim = Except.error e)
    (hofac : w.fetchOfac = Except.ok df)
    (huk : ∃ e, w.fetchUK = Except.error e)
    (heu : ∃ e, w.fetchEU = Except.error e)
    (hun : ∃ e, w.fetchUN = Except.error e)
    (hne : (filterVesselRows df).emptyDF = false) :
    checkSingleEntity w name ty =
      searchEntity name (resolveType name ty) (filterVesselRows df) "OFAC" := by
  obtain ⟨e2, he2⟩ := huk
  obtain ⟨e3, he3⟩ := heu
  obtain ⟨e4, he4⟩ := hun
  have hos := osBlock_of_search_down w name (resolveType name ty) hagg
  have hofacDF : fetchOfacDF w = filterVesselRows df := by
    show (match w.fetchOfac with
      | .error _ => emptyFrame
      | .ok d => filterVesselRows d) = filterVesselRows df
    rw [hofac]
  have hukDF : fetchUKDF w = emptyFrame := by
    unfold fetchUKDF
    rw [he2]
  have heuDF : fetchEUDF w = emptyFrame := by
    unfold fetchEUDF
    rw [he3]
  have hunDF : fetchUNDF w = emptyFrame := by
    unfold fetchUNDF
    rw [he4]
  show osBlock w name (resolveType name ty)
      ++ legacyContrib name (resolveType name ty) (fetchOfacDF w) "OFAC"
      ++ legacyContrib name (resolveType name ty) (fetchUKDF w) "UK"
      ++ legacyContrib name (resolveType name ty) (fetchEUDF w) "EU"
      ++ legacyContrib name (resolveType name ty) (fetchUNDF w) "UN" = _
  rw [hos, hofacDF, hukDF, heuDF, hunDF, legacyContrib_empty, legacyContrib_empty,
    legacyContrib_empty]
  have hc : legacyContrib name (resolveType name ty) (filterVesselRows df) "OFAC" =
      searchEntity name (resolveType name ty) (filterVesselRows df) "OFAC" := by
    unfold legacyContrib
    rw [hne]
    rfl
  rw [hc]
  simp

theorem c3_witness :
    checkSingleEntity ofacOnlyWorld "Ever Given" "vessel" =
      [{ entity_name := "Ever Given", entity_type := "vessel", sanction_list := "OFAC",
         match_type := "exact", confidence := 1,
         details := .legacyRow ⟨[("name", some "Ever Given")]⟩, source_url := "" }] := by
  rw [c3_only_successful_source ofacOnlyWorld "Ever Given" "vessel" ofacTwoRowFrame
    (fun q ds sch tp lim => ⟨.reqErr "connection error", rfl⟩) rfl
    ⟨.reqErr "connection error", rfl⟩ ⟨.reqErr "connection error", rfl⟩
    ⟨.reqErr "connection error", rfl⟩ rfl]
  decide

/-- C4 counterexample: a batch-path aggregator hit with server score 0.75 is
classified `fuzzy`, not `partial` as the claim's thresholds require. -/
theorem c4_counterexample :
    checkBulkEntities midScoreWorld oneFooCorp =
      [("Foo Corp", [buildBatchMatch "Foo Corp" "company" midScoreResult])] ∧
    (buildBatchMatch "Foo Corp" "company" midScoreResult).confidence = 3/4 ∧
    (buildBatchMatch "Foo Corp" "company" midScoreResult).match_type = "fuzzy" ∧
    "fuzzy" ≠ "partial" := by
  refine ⟨rfl, rfl, ?_, by decide⟩
  show (if (3 : ℚ)/4 < 9/10 then "fuzzy" else "exact") = "fuzzy"
  rw [if_pos (by norm_num)]

/-- C4 (amended): the single-query search path classifies by the documented
three thresholds, but the batch path knows only two classes: `exact` for
score ≥ 0.9 and `fuzzy` below, never `partial`. -/
theorem c4_match_type_thresholds :
    (∀ (results : List OSResult) (name ty : String) (m : SanctionMatch),
      m ∈ processOpenSanctionsResults results name ty →
      ((9 : ℚ)/10 ≤ m.confidence → m.match_type = "exact") ∧
      ((7 : ℚ)/10 ≤ m.confidence ∧ m.confidence < 9/10 → m.match_type = "partial") ∧
      (m.confidence < 7/10 → m.match_type = "fuzzy")) ∧
    (∀ (name ty : String) (r : MatchResult),
      (buildBatchMatch name ty r).match_type =
        if r.score < (9 : ℚ)/10 then "fuzzy" else "exact") ∧
    (∀ (name ty : String) (r : MatchResult),
      (buildBatchMatch name ty r).match_type ≠ "partial") := by
  refine ⟨?_, fun name ty r => rfl, ?_⟩
  · intro results name ty m hm
    obtain ⟨r, hr, rfl⟩ := List.mem_map.mp hm
    refine ⟨?_, ?_, ?_⟩
    · intro h
      have h9 : (9 : ℚ)/10 ≤ calculateSimilarity name r.caption := h
      show (if (9 : ℚ)/10 ≤ calculateSimilarity name r.caption then "exact"
        else if (7 : ℚ)/10 ≤ calculateSimilarity name r.caption then "partial"
        else "fuzzy") = "exact"
      rw [if_pos h9]
    · intro h
      have h7 : (7 : ℚ)/10 ≤ calculateSimilarity name r.caption := h.1
      have h9 : ¬ (9 : ℚ)/10 ≤ calculateSimilarity name r.caption := not_le.mpr h.2
      show (if (9 : ℚ)/10 ≤ calculateSimilarity name r.caption then "exact"
        else if (7 : ℚ)/10 ≤ calculateSimilarity name r.caption then "partial"
        else "fuzzy") = "partial"
      rw [if_neg h9, if_pos h7]
    · intro h
      have hlt : calculateSimilarity name r.caption < (7 : ℚ)/10 := h
      have h9 : ¬ (9 : ℚ)/10 ≤ calculateSimilarity name r.caption :=
        not_le.mpr (lt_trans hlt (by norm_num))
      have h7 : ¬ (7 : ℚ)/10 ≤ calculateSimilarity name r.caption := not_le.mpr hlt
      show (if (9 : ℚ)/10 ≤ calculateSimilarity name r.caption then "exact"
        else if (7 : ℚ)/10 ≤ calculateSimilarity name r.caption then "partial"
        else "fuzzy") = "fuzzy"
      rw [if_neg h9, if_neg h7]
  · intro name ty r
    show (if r.score < (9 : ℚ)/10 then "fuzzy" else "exact") ≠ "partial"
    by_cases h : r.score < (9 : ℚ)/10
    · rw [if_pos h]
      decide
    · rw [if_neg h]
      decide

/-- C5 counterexample: a resolution call can return two match records from
the same source (OFAC) that agree in every field — in particular in any
dedup key, including the claim's id-or-normalized-name key — because the
legacy path is never deduplicated. -/
theorem c5_counterexample :
    checkSingleEntity dupRowWorld "Acme Corp" "company" = [acmeMatch, acmeMatch] ∧
    acmeMatch.sanction_list = "OFAC" := ⟨by decide, rfl⟩

/-- C5 (amended): when both aggregator searches return without raising, the
aggregator block is deduplicated on the raw `entity_id` value (defaulting to
the empty string, with no caption fallback): no two of its records share an
id, the output is a subsequence of the processed hits, every processed hit's
id survives, and each kept record is the first of its id.  (Legacy-source
records, appended afterwards, are not deduplicated.) -/
theorem c5_aggregator_dedup (w : World) (name ty : String) (rs1 rs2 : List OSResult)
    (h1 : searchEntities w name "sanctions" (mapEntityTypeToSchema ty)
      (some ["sanction"]) 10 = Except.ok rs1)
    (h2 : searchEntities w name "default" (mapEntityTypeToSchema ty) none 10 =
      Except.ok rs2) :
    osBlock w name ty = dedupById (processOpenSanctionsResults rs1 name ty
      ++ processOpenSanctionsResults rs2 name ty) ∧
    ((osBlock w name ty).map dedupKeyOf).Nodup ∧
    List.Sublist (osBlock w name ty) (processOpenSanctionsResults rs1 name ty
      ++ processOpenSanctionsResults rs2 name ty) ∧
    (∀ m ∈ processOpenSanctionsResults rs1 name ty
        ++ processOpenSanctionsResults rs2 name ty,
      ∃ m2 ∈ osBlock w name ty, dedupKeyOf m2 = dedupKeyOf m) ∧
    (∀ m ∈ osBlock w name ty, ∃ l1 l2,
      processOpenSanctionsResults rs1 name ty ++ processOpenSanctionsResults rs2 name ty
        = l1 ++ m :: l2 ∧ ∀ x ∈ l1, dedupKeyOf x ≠ dedupKeyOf m) := by
  have heq : osBlock w name ty = dedupById (processOpenSanctionsResults rs1 name ty
      ++ processOpenSanctionsResults rs2 name ty) := by
    rw [osBlock, h1, h2]
  refine ⟨heq, ?_, ?_, ?_, ?_⟩
  · rw [heq]
    exact dedupByIdAux_nodup [] _
  · rw [heq]
    exact dedupByIdAux_sublist [] _
  · intro m hm
    rcases dedupByIdAux_covers [] _ m hm with hseen | ⟨m2, hm2, hk⟩
    · cases hseen
    · rw [heq]
      exact ⟨m2, hm2, hk⟩
  · intro m hm
    rw [heq] at hm
    exact dedupByIdAux_first [] _ m hm

theorem c5_witness :
    ((osBlock osSearchWorld "Ever Given" "vessel").map dedupKeyOf).Nodup := by
  have h := c5_aggregator_dedup osSearchWorld "Ever Given" "vessel" osDupResults [] rfl rfl
  exact h.2.1

/-- C6 counterexample: with `a = ""` and `b = "!"` the normalized forms are
byte-equal (both empty), yet `Score` returns 0.0, not the 1.0 the claim
requires: the code tests raw-input falsiness before normalizing. -/
theorem c6_counterexample :
    normalizeText "" = normalizeText "!" ∧ calculateSimilarity "" "!" = 0 ∧
    (0 : ℚ) ≠ 1 := by
  refine ⟨by decide, by decide, by norm_num⟩

/-- C6 (amended): `Score` returns 0.0 when either raw input is empty;
otherwise 1.0 when the normalized forms are byte-equal; otherwise the
Jaccard index of the whitespace-token sets of the normalized forms, with
0.0 when either token set is empty; the result always lies in [0, 1]. -/
theorem c6_similarity_spec (a b : String) :
    (a = "" ∨ b = "" → calculateSimilarity a b = 0) ∧
    (¬(a = "" ∨ b = "") → normalizeText a = normalizeText b →
      calculateSimilarity a b = 1) ∧
    (¬(a = "" ∨ b = "") → normalizeText a ≠ normalizeText b →
      (tokenSet (normalizeText a) = ∅ ∨ tokenSet (normalizeText b) = ∅ →
        calculateSimilarity a b = 0) ∧
      (¬(tokenSet (normalizeText a) = ∅ ∨ tokenSet (normalizeText b) = ∅) →
        calculateSimilarity a b =
          ((tokenSet (normalizeText a) ∩ tokenSet (normalizeText b)).card : ℚ) /
          ((tokenSet (normalizeText a) ∪ tokenSet (normalizeText b)).card : ℚ))) ∧
    0 ≤ calculateSimilarity a b ∧ calculateSimilarity a b ≤ 1 := by
  refine ⟨?_, ?_, ?_, ?_⟩
  · intro h
    rw [calculateSimilarity_def, if_pos h]
  · intro h hn
    rw [calculateSimilarity_def, if_neg h, if_pos hn]
  · intro h hn
    constructor
    · intro he
      rw [calculateSimilarity_def, if_neg h, if_neg hn, if_pos he]
    · intro he
      rw [calculateSimilarity_def, if_neg h, if_neg hn, if_neg he]
  · rw [calculateSimilarity_def]
    split_ifs with h1 h2 h3
    · exact ⟨le_refl 0, by norm_num⟩
    · exact ⟨by norm_num, le_refl 1⟩
    · exact ⟨le_refl 0, by norm_num⟩
    · constructor
      · exact div_nonneg (Nat.cast_nonneg _) (Nat.cast_nonneg _)
      · have hne1 : tokenSet (normalizeText a) ≠ ∅ := fun hc => h3 (Or.inl hc)
        have hpos : (0 : ℚ) <
            ((tokenSet (normalizeText a) ∪ tokenSet (normalizeText b)).card : ℚ) := by
          have hcard : 0 < (tokenSet (normalizeText a)
              ∪ tokenSet (normalizeText b)).card :=
            Finset.card_pos.mpr
              ((Finset.nonempty_iff_ne_empty.mpr hne1).mono Finset.subset_union_left)
          exact_mod_cast hcard
        rw [div_le_one hpos]
        have hsub : (tokenSet (normalizeText a) ∩ tokenSet (normalizeText b)) ⊆
            (tokenSet (normalizeText a) ∪ tokenSet (normalizeText b)) :=
          Finset.inter_subset_left.trans Finset.subset_union_left
        exact_mod_cast Finset.card_le_card hsub

/-- C7 counterexample: `Normalize("a !") = "a "` but applying `Normalize`
again gives `"a"` — the function is not idempotent, because the trim runs
before the punctuation removal and the removal can expose trailing
whitespace. -/
theorem c7_counterexample :
    ¬ normalizeText (normalizeText "a !") = normalizeText "a !" := by decide

/-- C7 (amended): a second `Normalize` pass coincides with stripping the
first pass's output; idempotence holds exactly on inputs whose normalization
has no leading or trailing whitespace. -/
theorem c7_normalize_twice (s : String) :
    normalizeText (normalizeText s) = pyStrip (normalizeText s) :=
  normalizeText_normalizeText s

/-- C8: `Classify` evaluates its rules in a fixed priority order — vessel
keywords, then company keywords, then the two-token-no-digit person rule,
then the vessel fallback — with the first matching rule winning, and the
four documented examples classify as stated. -/
theorem c8_classifier_priority :
    (∀ name, hasVesselKeyword name = true → detectEntityType name = "vessel") ∧
    (∀ name, hasVesselKeyword name = false → hasCompanyKeyword name = true →
      detectEntityType name = "company") ∧
    (∀ name, hasVesselKeyword name = false → hasCompanyKeyword name = false →
      personNamePattern name = true → detectEntityType name = "person") ∧
    (∀ name, hasVesselKeyword name = false → hasCompanyKeyword name = false →
      personNamePattern name = false → detectEntityType name = "vessel") ∧
    detectEntityType "MV OCEAN STAR VESSEL" = "vessel" ∧
    detectEntityType "ACME CORP LTD" = "company" ∧
    detectEntityType "John Smith" = "person" ∧
    detectEntityType "X" = "vessel" := by
  refine ⟨?_, ?_, ?_, ?_, by decide, by decide, by decide, by decide⟩
  · intro name h
    rw [detectEntityType, if_pos h]
  · intro name hv hc
    rw [detectEntityType, hv, if_neg (by decide), if_pos hc]
  · intro name hv hc hp
    rw [detectEntityType, hv, if_neg (by decide), hc, if_neg (by decide), if_pos hp]
  · intro name hv hc hp
    rw [detectEntityType, hv, if_neg (by decide), hc, if_neg (by decide), hp,
      if_neg (by decide)]

/-- C9: the batch path keys its outgoing queries by position in the FILTERED
list but keys `entity_mapping` by position in the ORIGINAL input list, so
one skipped empty-name entry misaligns the rejoin: with inputs
["", "A", "B"] and a well-behaved server, A's results are dropped, B's
results are attributed to A, and B gets no entry at all. -/
theorem c9_rejoin_misaligned :
    buildQueries (bulkPrep entsWithSkip).1 =
      [("entity_0", createOpenSanctionsEntity "A" "company"),
       ("entity_1", createOpenSanctionsEntity "B" "company")] ∧
    (bulkPrep entsWithSkip).2 =
      [("entity_1", "A", "company"), ("entity_2", "B", "company")] ∧
    checkBulkEntities echoServerWorld entsWithSkip =
      [("A", [buildBatchMatch "A" "company" resultForB])] ∧
    alookup (checkBulkEntities echoServerWorld entsWithSkip) "B" = none :=
  ⟨rfl, rfl, rfl, rfl⟩

/-- C10: `check_bulk_entities` sends exactly one query per input entry with a
non-empty name (in order), and every key of the returned mapping is the
non-empty name of some input entry — entries with an empty or absent name
are skipped silently on both the batch path and the fallback path. -/
theorem c10_empty_names_skipped (w : World) (ents : List EntityIn) :
    (bulkPrep ents).1 = (ents.filter (fun e => ! (e.name == ""))).map
        (fun e => createOpenSanctionsEntity e.name
          (if e.ty = "auto" then detectEntityType e.name else e.ty)) ∧
    ∀ k ∈ dictKeys (checkBulkEntities w ents), k ≠ "" ∧ ∃ e ∈ ents, e.name = k := by
  refine ⟨bulkPrepAux_queries ents 0, ?_⟩
  intro k hk
  have hk' : k ∈ dictKeys (match matchEntities w (bulkPrep ents).1 with
      | .ok responses => bulkSuccessFold (bulkPrep ents).2 responses
      | .error _ => bulkFallback w ents) := hk
  cases hm : matchEntities w (bulkPrep ents).1 with
  | ok responses =>
    rw [hm] at hk'
    obtain ⟨q, t, hmem⟩ := bulkSuccessFold_keys_start (bulkPrep ents).2 responses k hk'
    exact bulkPrepAux_mapping_names ents 0 q k t hmem
  | error e =>
    rw [hm] at hk'
    rcases bulkFallback_keys_sound w ents [] k hk' with h0 | h1
    · cases h0
    · exact h1

end RoyalSanctionWatch
